import Mathlib

/-!
Shallow embedding of the chatbot application (`src/chatbot_app.py`): the
response-selection function `get_bot_response`, the `/chat` request handler,
and the SQLite conversation log, together with proofs of the specification's
claims about them.

Strings are modelled as lists of characters (`Str`).  Python's substring
test `needle in hay` is modelled by `containsSub`; `str.lower` by
`lowerStr` (ASCII case folding: the program's data is ASCII plus Devanagari,
and Devanagari is caseless); the regular expression
`\b(work|do)\b.*\b(you)\b` by the executable matcher `regex1Match`
(`.` does not match a newline, `\b` is a word boundary); the pattern
`काय काम करतो` has no metacharacters, so `re.search` with it is plain
substring containment.
-/

namespace Chatbot

/-- Strings as lists of characters. -/
abbrev Str := List Char

/-- The character list of a string literal. -/
def ofStr (s : String) : Str := s.data

/-- Python `str.lower` on one character, restricted to ASCII (the program's
data is ASCII plus caseless Devanagari).  Models line 180,
`user_message.lower()`. -/
def lowerChar (c : Char) : Char :=
  if 65 ≤ c.toNat ∧ c.toNat ≤ 90 then Char.ofNat (c.toNat + 32) else c

/-- Python `str.lower` on a whole string. -/
def lowerStr (s : Str) : Str := s.map lowerChar

/-- Python's substring test `needle in hay`. -/
def containsSub (needle : Str) : Str → Bool
  | [] => needle == []
  | c :: rest => needle.isPrefixOf (c :: rest) || containsSub needle rest

/-- A word character for the regex `\b` boundary: Python's `\w` covers
alphanumerics and the underscore over all of Unicode; this model covers the
ASCII range plus the Devanagari block U+0900 to U+097F, the only scripts
appearing in this program's data. -/
def isWordChar (c : Char) : Bool :=
  c.isAlphanum || c == '_' || (0x900 ≤ c.toNat && c.toNat ≤ 0x97F)

/-- Word boundary on the left of position `i`: the string starts there or the
previous character is not a word character (the tokens matched all start with
a word character). -/
def boundaryBefore (m : Str) (i : Nat) : Bool :=
  i == 0 || !isWordChar (m.getD (i - 1) ' ')

/-- Word boundary on the right of position `i`: past the end of the string the
default `' '` is not a word character, so reading the character at `i` with
default `' '` is exact (the tokens matched all end with a word character). -/
def boundaryAfter (m : Str) (i : Nat) : Bool :=
  !isWordChar (m.getD i ' ')

/-- The token `t` occurs at position `i` of `m` delimited by `\b` word
boundaries on both sides. -/
def tokenAt (m t : Str) (i : Nat) : Bool :=
  t.isPrefixOf (m.drop i) && boundaryBefore m i && boundaryAfter m (i + t.length)

/-- No newline among the characters of `m` at positions `a ≤ p < b`: the gap
that the regex's `.*` must span (`.` does not match a newline). -/
def noNewline (m : Str) (a b : Nat) : Bool :=
  ((m.drop a).take (b - a)).all (fun c => c != '\n')

/-- The two alternatives of the first group of regex rule 1. -/
def regex1Tokens : List Str := [ofStr "work", ofStr "do"]

/-- Whether `re.search(r'\b(work|do)\b.*\b(you)\b', m)` finds a match: some
word-boundary token "work" or "do" is followed, with no intervening newline,
by a later word-boundary token "you".  Models the first test on line 195. -/
def regex1Match (m : Str) : Bool :=
  (List.range (m.length + 1)).any fun i =>
    regex1Tokens.any fun t =>
      tokenAt m t i &&
      ((List.range (m.length + 1)).any fun j =>
        decide (i + t.length ≤ j) && tokenAt m (ofStr "you") j &&
          noNewline m (i + t.length) j)

/-- The pattern of regex rule 2 on line 195; it has no regex metacharacters,
so `re.search` with it is substring containment. -/
def devPhrase : Str := ofStr "काय काम करतो"

/-- The response returned when either regex rule matches (line 196), which is
also the response of the purpose/capabilities/work table rule (line 187): the
two string literals in the source are character-for-character identical. -/
def workResponse : Str :=
  ofStr "I am a simple chatbot designed to demonstrate a basic web application with a Flask backend and SQLite logging. (मी एक साधा चॅटबॉट आहे जो फ्लास्क बॅकएंड आणि SQLite लॉगिंगसह एक वेब ॲप्लिकेशन दर्शविण्यासाठी डिझाइन केला आहे.)"

/-- Response of the greeting rule (line 184). -/
def greetingResponse : Str :=
  ofStr "Hello there! How can I assist you today? (नमस्कार! मी तुम्हाला कशी मदत करू शकतो?)"

/-- Response of the "how are you" rule (line 185). -/
def howAreYouResponse : Str :=
  ofStr "I'm a bot, so I'm doing great! Thanks for asking. (मी ठीक आहे, विचारल्याबद्दल धन्यवाद!)"

/-- Response of the help rule (line 186). -/
def helpResponse : Str :=
  ofStr "I can help with basic inquiries. Try asking about my purpose or capabilities. (मी तुम्हाला काही मूलभूत प्रश्नांची उत्तरे देऊ शकतो. माझ्या उद्देश किंवा क्षमतेबद्दल विचारून पहा.)"

/-- Response of the goodbye rule (line 188). -/
def goodbyeResponse : Str :=
  ofStr "Goodbye! Feel free to return if you have more questions. (पुन्हा भेटू! तुम्हाला आणखी काही प्रश्न असल्यास, नक्की परत या.)"

/-- Response of the name rule (line 189). -/
def nameResponse : Str :=
  ofStr "I don't have a name, but you can call me Chatbot. (माझे काही नाव नाही, पण तुम्ही मला चॅटबॉट म्हणू शकता.)"

/-- Response of the date rule (line 190): an f-string that interpolates
`datetime.date.today().strftime('%B %d, %Y')` twice.  The formatted current
date is passed in as `today`. -/
def dateResponse (today : Str) : Str :=
  ofStr "Today's date is: " ++ today ++ ofStr ". (आजची तारीख आहे: " ++ today ++ ofStr ")"

/-- The fallback response on line 203, returned when nothing matches. -/
def fallbackResponse : Str :=
  ofStr "I'm sorry, I don't understand that. Can you please rephrase? (माफ करा, मला समजले नाही. कृपया पुन्हा सांगा.)"

/-- The `RESPONSES` dictionary (lines 183 to 192) as the ordered list of
(trigger tuple, response) pairs in its insertion order, which is the order
Python iterates it in.  The dictionary literal sits inside the function body,
so the date response is rebuilt, with the current date, on every call; the
formatted current date is the `today` parameter. -/
def rulesList (today : Str) : List (List Str × Str) :=
  [([ofStr "hello", ofStr "hi", ofStr "नमस्कार", ofStr "कसा आहेस"], greetingResponse),
   ([ofStr "how are you", ofStr "कसा आहेस"], howAreYouResponse),
   ([ofStr "help", ofStr "मदत"], helpResponse),
   ([ofStr "purpose", ofStr "capabilities", ofStr "work", ofStr "उद्देश", ofStr "क्षमता"],
     workResponse),
   ([ofStr "goodbye", ofStr "bye", ofStr "पुन्हा भेटू"], goodbyeResponse),
   ([ofStr "name", ofStr "what's your name", ofStr "what is your name", ofStr "नाव",
      ofStr "तुमचं नाव काय आहे"], nameResponse),
   ([ofStr "date", ofStr "today's date", ofStr "आजची तारीख", ofStr "तारीख"],
     dateResponse today)]

/-- The scan over `RESPONSES` (lines 199 to 201): the first rule one of whose
triggers is a substring of the message wins. -/
def findRule (m : Str) : List (List Str × Str) → Option Str
  | [] => none
  | (kws, resp) :: rest =>
      if kws.any (fun k => containsSub k m) then some resp else findRule m rest

/-- The function `get_bot_response` (lines 167 to 203): lowercase the input,
try the two regex rules, then scan the table, then fall back.  `today` is the
formatted current date read inside the call. -/
def respond (today : Str) (input : Str) : Str :=
  let m := lowerStr input
  if regex1Match m || containsSub devPhrase m then workResponse
  else
    match findRule m (rulesList today) with
    | some r => r
    | none => fallbackResponse

/-- The characterization of regex rule 1 in the words of claim C4: a
word-boundary token "work" or "do" occurs before a later word-boundary
token "you".  Stated over unbounded positions and with no condition on the
characters between the two tokens. -/
def rule1ClaimedMatch (m : Str) : Prop :=
  ∃ i t, t ∈ regex1Tokens ∧ tokenAt m t i = true ∧
    ∃ j, i + t.length ≤ j ∧ tokenAt m (ofStr "you") j = true

/-- The amended characterization of regex rule 1: as `rule1ClaimedMatch`,
but additionally no newline character stands between the two tokens, since
the `.` of the pattern does not match a newline. -/
def rule1SpecMatch (m : Str) : Prop :=
  ∃ i t, t ∈ regex1Tokens ∧ tokenAt m t i = true ∧
    ∃ j, i + t.length ≤ j ∧ tokenAt m (ofStr "you") j = true ∧
      noNewline m (i + t.length) j = true

/-- English month names as produced by `strftime('%B ...')`. -/
def monthName : Nat → Str
  | 1 => ofStr "January"
  | 2 => ofStr "February"
  | 3 => ofStr "March"
  | 4 => ofStr "April"
  | 5 => ofStr "May"
  | 6 => ofStr "June"
  | 7 => ofStr "July"
  | 8 => ofStr "August"
  | 9 => ofStr "September"
  | 10 => ofStr "October"
  | 11 => ofStr "November"
  | 12 => ofStr "December"
  | _ => []

/-- Two-digit zero-padded day as produced by `strftime('%d')` for day
numbers below 100. -/
def pad2 (d : Nat) : Str := [Nat.digitChar (d / 10), Nat.digitChar (d % 10)]

/-- Four-digit year as produced by `strftime('%Y')` for years 1000 to 9999. -/
def year4 (y : Nat) : Str :=
  [Nat.digitChar (y / 1000 % 10), Nat.digitChar (y / 100 % 10),
   Nat.digitChar (y / 10 % 10), Nat.digitChar (y % 10)]

/-- The formatted current date `datetime.date.today().strftime('%B %d, %Y')`
of line 190, e.g. "October 12, 2025". -/
def formatDate (y m d : Nat) : Str :=
  monthName m ++ ' ' :: (pad2 d ++ ',' :: ' ' :: year4 y)

/-- A calendar date in the range where the `%Y` rendering is four digits. -/
abbrev ValidDate (y m d : Nat) : Prop :=
  1000 ≤ y ∧ y ≤ 9999 ∧ 1 ≤ m ∧ m ≤ 12 ∧ 1 ≤ d ∧ d ≤ 31

/-- A fixed sample value of the formatted current date, used to instantiate
`respond` in concrete checks. -/
def todayEx : Str := formatDate 2025 10 12

/-- One row of the `conversations` table (lines 149 to 156): an
auto-incremented integer key, the two message texts, and a timestamp that
SQLite fills in at write time (`DEFAULT CURRENT_TIMESTAMP`); the insert on
lines 222 to 225 supplies only the two texts. -/
structure Exchange where
  id : Nat
  user_message : Str
  bot_response : Str
  timestamp : Nat
deriving DecidableEq

/-- The conversation log store: its rows and the next `AUTOINCREMENT` key. -/
structure Store where
  rows : List Exchange
  nextId : Nat
deriving DecidableEq

/-- The store after `init_db` on a fresh database file: no rows, and SQLite's
`AUTOINCREMENT` hands out keys starting from 1. -/
def initDb : Store := { rows := [], nextId := 1 }

/-- The `INSERT INTO conversations` of lines 222 to 225 followed by `commit`:
the new row gets the next key and the write-time timestamp `now`. -/
def insertRow (db : Store) (inp outp : Str) (now : Nat) : Store :=
  { rows := db.rows ++ [⟨db.nextId, inp, outp, now⟩], nextId := db.nextId + 1 }

/-- The outcome of one `/chat` request: the JSON `{response}` with HTTP 200,
the JSON `{error}` with HTTP 400, or an unhandled exception (Flask's
HTTP 500) when the database write raises. -/
inductive ChatResult where
  | ok (response : Str)
  | clientError (error : Str)
  | serverError
deriving DecidableEq

/-- The 400 payload of line 216. -/
def noMessageError : Str := ofStr "No message provided"

/-- The `chat` route handler (lines 211 to 229).  `msg` is
`request.json.get('message')` (`none` when the key is missing); a missing or
empty message is falsy, so it is rejected before the matcher runs.  `now` is
the write-time clock and `writeOk` is whether the database write succeeds; a
failing write raises out of the handler, so nothing is committed and no
response is returned. -/
def chat (today : Str) (now : Nat) (writeOk : Bool) (msg : Option Str)
    (db : Store) : ChatResult × Store :=
  match msg with
  | none => (.clientError noMessageError, db)
  | some m =>
    if m = [] then (.clientError noMessageError, db)
    else
      let bot := respond today m
      if writeOk then (.ok bot, insertRow db m bot now)
      else (.serverError, db)

/-- A sequence of successful `/chat` calls, each given as (message,
write-time clock), threaded through the store. -/
def runChats (today : Str) (calls : List (Str × Nat)) (db : Store) : Store :=
  calls.foldl (fun acc c => (chat today c.2 true (some c.1) acc).2) db

/-- The log contents the specification promises after a run of successful
calls, starting from key `i`: the k-th record keeps the k-th call's exact
input and output and its write-time timestamp, under ascending keys. -/
def expectedLog (today : Str) (i : Nat) : List (Str × Nat) → List Exchange
  | [] => []
  | c :: rest => ⟨i, c.1, respond today c.1, c.2⟩ :: expectedLog today (i + 1) rest

theorem toNat_ofNat_of_lt {n : Nat} (h : n < 0xd800) : (Char.ofNat n).toNat = n := by
  unfold Char.ofNat
  rw [dif_pos (Or.inl h)]
  rfl

theorem lowerChar_idem (c : Char) : lowerChar (lowerChar c) = lowerChar c := by
  unfold lowerChar
  by_cases h : 65 <= c.toNat /\ c.toNat <= 90
  · rw [if_pos h]
    have ht : (Char.ofNat (c.toNat + 32)).toNat = c.toNat + 32 :=
      toNat_ofNat_of_lt (by omega)
    rw [if_neg (by omega)]
  · rw [if_neg h, if_neg h]

theorem lowerStr_idem (s : Str) : lowerStr (lowerStr s) = lowerStr s := by
  unfold lowerStr
  rw [List.map_map]
  have h : lowerChar ∘ lowerChar = lowerChar := funext lowerChar_idem
  rw [h]

theorem containsSub_of_isPrefixOf {n hay : Str} (h : n.isPrefixOf hay = true) :
    containsSub n hay = true := by
  cases hay with
  | nil =>
    cases n with
    | nil => rfl
    | cons c r => simp [List.isPrefixOf] at h
  | cons c rest =>
    show (n.isPrefixOf (c :: rest) || containsSub n rest) = true
    rw [h, Bool.true_or]

theorem containsSub_append (n pre suf : Str) :
    containsSub n (pre ++ n ++ suf) = true := by
  induction pre with
  | nil =>
    apply containsSub_of_isPrefixOf
    exact List.isPrefixOf_iff_prefix.mpr ⟨suf, by simp⟩
  | cons c pre ih =>
    show (n.isPrefixOf (c :: (pre ++ n ++ suf)) || containsSub n (pre ++ n ++ suf)) = true
    rw [ih, Bool.or_true]

theorem tokenAt_bound {m t : Str} {i : Nat} (ht : t ≠ []) (h : tokenAt m t i = true) :
    i + t.length ≤ m.length := by
  unfold tokenAt at h
  simp only [Bool.and_eq_true] at h
  have hp : t <+: m.drop i := List.isPrefixOf_iff_prefix.mp h.1.1
  have hl : t.length ≤ (m.drop i).length := hp.length_le
  rw [List.length_drop] at hl
  have hpos : 0 < t.length := List.length_pos.mpr ht
  omega

theorem regex1Match_iff (m : Str) : regex1Match m = true ↔ rule1SpecMatch m := by
  constructor
  · intro h
    rw [regex1Match, List.any_eq_true] at h
    obtain ⟨i, _, h⟩ := h
    rw [List.any_eq_true] at h
    obtain ⟨t, ht, h⟩ := h
    rw [Bool.and_eq_true] at h
    obtain ⟨hti, h⟩ := h
    rw [List.any_eq_true] at h
    obtain ⟨j, _, h⟩ := h
    rw [Bool.and_eq_true, Bool.and_eq_true] at h
    obtain ⟨⟨hij, htj⟩, hnl⟩ := h
    exact ⟨i, t, ht, hti, j, of_decide_eq_true hij, htj, hnl⟩
  · intro h
    obtain ⟨i, t, ht, hti, j, hij, htj, hnl⟩ := h
    have htne : t ≠ [] := by
      have h2 : t = ofStr "work" ∨ t = ofStr "do" := by
        simpa [regex1Tokens] using ht
      rcases h2 with rfl | rfl <;> simp [ofStr]
    have hib := tokenAt_bound htne hti
    have hjb := tokenAt_bound (t := ofStr "you") (by simp [ofStr]) htj
    have hyl : (ofStr "you").length = 3 := rfl
    rw [regex1Match, List.any_eq_true]
    refine ⟨i, List.mem_range.mpr (by omega), ?_⟩
    rw [List.any_eq_true]
    refine ⟨t, ht, ?_⟩
    rw [Bool.and_eq_true]
    refine ⟨hti, ?_⟩
    rw [List.any_eq_true]
    refine ⟨j, List.mem_range.mpr (by omega), ?_⟩
    rw [Bool.and_eq_true, Bool.and_eq_true]
    exact ⟨⟨decide_eq_true hij, htj⟩, hnl⟩



theorem findRule_mem {m r : Str} {l : List (List Str × Str)}
    (h : findRule m l = some r) : ∃ p ∈ l, r = p.2 := by
  induction l with
  | nil => simp [findRule] at h
  | cons hd tl ih =>
    obtain ⟨kws, resp⟩ := hd
    rw [findRule] at h
    by_cases hc : kws.any (fun k => containsSub k m) = true
    · rw [if_pos hc] at h
      exact ⟨(kws, resp), List.mem_cons_self _ _, (Option.some.injEq _ _ ▸ h.symm)⟩
    · rw [if_neg hc] at h
      obtain ⟨p, hp, hr⟩ := ih h
      exact ⟨p, List.mem_cons_of_mem _ hp, hr⟩

theorem findRule_none {m : Str} {l : List (List Str × Str)}
    (h : ∀ p ∈ l, ∀ k ∈ p.1, containsSub k m = false) : findRule m l = none := by
  induction l with
  | nil => rfl
  | cons hd tl ih =>
    obtain ⟨kws, resp⟩ := hd
    rw [findRule, if_neg, ih]
    · intro p hp
      exact h p (List.mem_cons_of_mem _ hp)
    · rw [List.any_eq_true]
      rintro ⟨k, hk, hc⟩
      rw [h (kws, resp) (List.mem_cons_self _ _) k hk] at hc
      cases hc

theorem findRule_first {m : Str} {l : List (List Str × Str)} {i : Nat}
    (hi : i < l.length)
    (hfire : (l.getD i ([], [])).1.any (fun k => containsSub k m) = true)
    (hprev : ∀ j, j < i → (l.getD j ([], [])).1.any (fun k => containsSub k m) = false) :
    findRule m l = some (l.getD i ([], [])).2 := by
  induction l generalizing i with
  | nil => simp at hi
  | cons hd tl ih =>
    obtain ⟨kws, resp⟩ := hd
    cases i with
    | zero =>
      rw [List.getD_cons_zero] at hfire ⊢
      rw [findRule, if_pos hfire]
    | succ i =>
      rw [List.getD_cons_succ] at hfire ⊢
      have h0 : ((kws, resp) :: tl).getD 0 ([], []) = (kws, resp) := List.getD_cons_zero
      have hhd : kws.any (fun k => containsSub k m) = false := by
        have := hprev 0 (Nat.succ_pos i)
        rwa [h0] at this
      rw [findRule, if_neg (by rw [hhd]; exact Bool.false_ne_true)]
      apply ih (Nat.lt_of_succ_lt_succ hi) hfire
      intro j hj
      have := hprev (j + 1) (Nat.succ_lt_succ hj)
      rwa [List.getD_cons_succ] at this

theorem digitChar_inj : ∀ a, a < 10 → ∀ b, b < 10 →
    Nat.digitChar a = Nat.digitChar b → a = b := by decide

theorem monthName_inj : ∀ a, a < 13 → ∀ b, b < 13 →
    monthName a = monthName b → a = b := by decide

theorem monthName_no_space (m : Nat) : ' ' ∉ monthName m := by
  unfold monthName
  split <;> decide

theorem append_space_inj : ∀ (u₁ : Str) {v₁ : Str} (u₂ : Str) {v₂ : Str},
    ' ' ∉ u₁ → ' ' ∉ u₂ → u₁ ++ ' ' :: v₁ = u₂ ++ ' ' :: v₂ → u₁ = u₂ ∧ v₁ = v₂ := by
  intro u₁
  induction u₁ with
  | nil =>
    intro v₁ u₂ v₂ _ hu₂ h
    cases u₂ with
    | nil => simpa using h
    | cons d u₂ =>
      rw [List.nil_append, List.cons_append, List.cons.injEq] at h
      exact absurd (h.1 ▸ List.mem_cons_self _ _) hu₂
  | cons c u₁ ih =>
    intro v₁ u₂ v₂ hu₁ hu₂ h
    cases u₂ with
    | nil =>
      rw [List.cons_append, List.nil_append, List.cons.injEq] at h
      exact absurd (h.1 ▸ List.mem_cons_self _ _) hu₁
    | cons d u₂ =>
      rw [List.cons_append, List.cons_append, List.cons.injEq] at h
      have := ih u₂ (fun hm => hu₁ (List.mem_cons_of_mem _ hm))
        (fun hm => hu₂ (List.mem_cons_of_mem _ hm)) h.2
      exact ⟨by rw [h.1, this.1], this.2⟩

theorem pad2_inj {d₁ d₂ : Nat} (h₁ : d₁ < 100) (h₂ : d₂ < 100)
    (h : pad2 d₁ = pad2 d₂) : d₁ = d₂ := by
  unfold pad2 at h
  rw [List.cons.injEq, List.cons.injEq] at h
  have ha := digitChar_inj _ (by omega) _ (by omega) h.1
  have hb := digitChar_inj (d₁ % 10) (by omega) (d₂ % 10) (by omega) h.2.1
  omega

theorem year4_inj {y₁ y₂ : Nat} (h₁ : y₁ < 10000) (h₂ : y₂ < 10000)
    (h : year4 y₁ = year4 y₂) : y₁ = y₂ := by
  unfold year4 at h
  simp only [List.cons.injEq, and_true] at h
  have ha := digitChar_inj _ (by omega) _ (by omega) h.1
  have hb := digitChar_inj _ (by omega) _ (by omega) h.2.1
  have hc := digitChar_inj _ (by omega) _ (by omega) h.2.2.1
  have hd := digitChar_inj (y₁ % 10) (by omega) (y₂ % 10) (by omega) h.2.2.2
  omega

theorem formatDate_inj {y₁ m₁ d₁ y₂ m₂ d₂ : Nat}
    (h₁ : ValidDate y₁ m₁ d₁) (h₂ : ValidDate y₂ m₂ d₂)
    (h : formatDate y₁ m₁ d₁ = formatDate y₂ m₂ d₂) :
    y₁ = y₂ ∧ m₁ = m₂ ∧ d₁ = d₂ := by
  unfold formatDate at h
  obtain ⟨hm, hrest⟩ :=
    append_space_inj _ _ (monthName_no_space m₁) (monthName_no_space m₂) h
  have hmm : m₁ = m₂ := monthName_inj m₁ (by omega) m₂ (by omega) hm
  have hlen : (pad2 d₁).length = (pad2 d₂).length := rfl
  obtain ⟨hd, htail⟩ := List.append_inj hrest hlen
  have hdd : d₁ = d₂ := pad2_inj (by omega) (by omega) hd
  rw [List.cons.injEq, List.cons.injEq] at htail
  have hyy : y₁ = y₂ := year4_inj (by omega) (by omega) htail.2.2
  exact ⟨hyy, hmm, hdd⟩

theorem dateResponse_inj {t₁ t₂ : Str} (h : dateResponse t₁ = dateResponse t₂) :
    t₁ = t₂ := by
  unfold dateResponse at h
  simp only [List.append_assoc] at h
  have hlen := congrArg List.length h
  simp only [List.length_append] at hlen
  have := List.append_cancel_left h
  obtain ⟨ht, _⟩ := List.append_inj this (by omega)
  exact ht

theorem dateResponse_ne_nil (t : Str) : dateResponse t ≠ [] := by
  intro h
  have hlen := congrArg List.length h
  simp only [dateResponse, List.length_append, List.length_nil] at hlen
  have h17 : (ofStr "Today's date is: ").length = 17 := rfl
  omega



theorem chat_some_ne_nil {today : Str} {now : Nat} {m : Str} (hm : m ≠ []) (db : Store) :
    chat today now true (some m) db =
      (.ok (respond today m), insertRow db m (respond today m) now) := by
  rw [chat, if_neg hm]
  rfl

theorem runChats_eq (today : Str) : ∀ (calls : List (Str × Nat)) (db : Store),
    (∀ c ∈ calls, c.1 ≠ []) →
    runChats today calls db =
      { rows := db.rows ++ expectedLog today db.nextId calls,
        nextId := db.nextId + calls.length } := by
  intro calls
  induction calls with
  | nil =>
    intro db _
    simp [runChats, expectedLog]
  | cons c rest ih =>
    intro db h
    have hc : c.1 ≠ [] := h c (List.mem_cons_self _ _)
    have hrest : ∀ x ∈ rest, x.1 ≠ [] := fun x hx => h x (List.mem_cons_of_mem _ hx)
    rw [runChats, List.foldl_cons]
    rw [show (chat today c.2 true (some c.1) db).2 = insertRow db c.1 (respond today c.1) c.2 by
      rw [chat_some_ne_nil hc]]
    have := ih (insertRow db c.1 (respond today c.1) c.2) hrest
    rw [runChats] at this
    rw [this]
    simp only [insertRow, expectedLog, List.append_assoc, List.singleton_append,
      List.length_cons, Store.mk.injEq]
    exact ⟨trivial, by omega⟩

theorem expectedLog_length (today : Str) : ∀ (calls : List (Str × Nat)) (i : Nat),
    (expectedLog today i calls).length = calls.length := by
  intro calls
  induction calls with
  | nil => intro i; rfl
  | cons c rest ih => intro i; simp [expectedLog, ih]

theorem expectedLog_getElem (today : Str) :
    ∀ (calls : List (Str × Nat)) (i k : Nat) (c : Str × Nat), calls[k]? = some c →
    (expectedLog today i calls)[k]? =
      some ⟨i + k, c.1, respond today c.1, c.2⟩ := by
  intro calls
  induction calls with
  | nil => intro i k c h; simp at h
  | cons d rest ih =>
    intro i k c h
    cases k with
    | zero =>
      rw [List.getElem?_cons_zero] at h
      obtain rfl : d = c := Option.some.injEq _ _ ▸ h
      rw [expectedLog, List.getElem?_cons_zero, Nat.add_zero]
    | succ k =>
      rw [List.getElem?_cons_succ] at h
      rw [expectedLog, List.getElem?_cons_succ, ih (i + 1) k c h]
      congr 2
      omega



theorem rules_responses_ne_nil (today : Str) : ∀ p ∈ rulesList today, p.2 ≠ [] := by
  intro p hp
  simp only [rulesList, List.mem_cons, List.not_mem_nil, or_false] at hp
  rcases hp with rfl | rfl | rfl | rfl | rfl | rfl | rfl
  · decide
  · decide
  · decide
  · decide
  · decide
  · decide
  · exact dateResponse_ne_nil today

theorem respond_eq (today input : Str) :
    respond today input =
      if regex1Match (lowerStr input) || containsSub devPhrase (lowerStr input)
      then workResponse
      else
        match findRule (lowerStr input) (rulesList today) with
        | some r => r
        | none => fallbackResponse := rfl

/-- C1: for every input `respond` terminates (it is a total Lean function)
and returns one non-empty string; when neither regex rule nor any table rule
matches, the result is the fixed fallback response. -/
theorem c1_total_nonempty_fallback (today input : Str) :
    respond today input ≠ [] ∧
    ((∀ p ∈ rulesList today, ∀ k ∈ p.1, containsSub k (lowerStr input) = false) →
      regex1Match (lowerStr input) = false →
      containsSub devPhrase (lowerStr input) = false →
      respond today input = fallbackResponse) := by
  constructor
  · rw [respond_eq]
    by_cases h : (regex1Match (lowerStr input) || containsSub devPhrase (lowerStr input)) = true
    · rw [if_pos h]
      decide
    · rw [if_neg h]
      cases hfind : findRule (lowerStr input) (rulesList today) with
      | some r =>
        obtain ⟨p, hp, rfl⟩ := findRule_mem hfind
        exact rules_responses_ne_nil today p hp
      | none => decide
  · intro hall hre hdev
    rw [respond_eq, if_neg (by rw [hre, hdev]; simp), findRule_none hall]

theorem c1_witness :
    respond todayEx (ofStr "asdkjasd") ≠ [] ∧
    respond todayEx (ofStr "asdkjasd") = fallbackResponse := by
  obtain ⟨h1, h2⟩ := c1_total_nonempty_fallback todayEx (ofStr "asdkjasd")
  exact ⟨h1, h2 (by decide) (by decide) (by decide)⟩

theorem c2_counterexample :
    (ofStr "hello") ∈ ((rulesList todayEx).getD 0 ([], [])).1 ∧
    containsSub (ofStr "hello") (lowerStr (ofStr "do you hello")) = true ∧
    respond todayEx (ofStr "do you hello") ≠ ((rulesList todayEx).getD 0 ([], [])).2 := by
  exact ⟨by decide, by decide, by decide⟩

/-- C2 (amended): for inputs that match neither regex rule, the table is
scanned in order and the first rule with a matching trigger wins: if rule `i`
has a trigger contained in the lowercased input and no rule before it has
one, `respond` returns rule `i`'s response. -/
theorem c2_first_match (today input : Str) (i : Nat)
    (hi : i < (rulesList today).length)
    (hfire : ((rulesList today).getD i ([], [])).1.any
      (fun k => containsSub k (lowerStr input)) = true)
    (hprev : ∀ j, j < i → ((rulesList today).getD j ([], [])).1.any
      (fun k => containsSub k (lowerStr input)) = false)
    (hre : regex1Match (lowerStr input) = false)
    (hdev : containsSub devPhrase (lowerStr input) = false) :
    respond today input = ((rulesList today).getD i ([], [])).2 := by
  rw [respond_eq, if_neg (by rw [hre, hdev]; simp), findRule_first hi hfire hprev]

theorem c2_witness :
    respond todayEx (ofStr "bye") = ((rulesList todayEx).getD 4 ([], [])).2 :=
  c2_first_match todayEx (ofStr "bye") 4 (by decide) (by decide) (by decide)
    (by decide) (by decide)

/-- C3: an input matching either regex rule gets the regex rules' fixed
response, whatever table triggers it also contains: the regex test on
line 195 runs before the table scan. -/
theorem c3_regex_preempts (today input : Str)
    (h : regex1Match (lowerStr input) = true ∨
      containsSub devPhrase (lowerStr input) = true) :
    respond today input = workResponse := by
  rw [respond_eq, if_pos]
  rcases h with h | h <;> simp [h]

theorem c3_witness :
    respond todayEx (ofStr "what work do you do") = workResponse :=
  c3_regex_preempts todayEx (ofStr "what work do you do") (Or.inl (by decide))

theorem c4_counterexample :
    rule1ClaimedMatch (ofStr "do\nyou") ∧
    regex1Match (ofStr "do\nyou") = false ∧
    respond todayEx (ofStr "do\nyou") = fallbackResponse := by
  exact ⟨⟨0, ofStr "do", by decide, by decide, 3, by decide, by decide⟩,
    by decide, by decide⟩

/-- C4 (amended): regex rule 1 matches exactly when a word-boundary token
"work" or "do" occurs before a later word-boundary token "you" with no
newline between them; it fires for "what work do you do" (on which `respond`
returns the fixed work response) and not for "you do work sometimes". -/
theorem c4_rule1_characterization :
    (∀ m, regex1Match m = true ↔ rule1SpecMatch m) ∧
    (∀ today, respond today (ofStr "what work do you do") = workResponse) ∧
    regex1Match (lowerStr (ofStr "you do work sometimes")) = false :=
  ⟨regex1Match_iff, fun _ => rfl, by decide⟩

/-- C5: the date rule's response embeds the current date, formatted
"Month DD, YYYY" by `strftime('%B %d, %Y')`, read freshly inside each call
(the `RESPONSES` dictionary is rebuilt per call, line 190): evaluating
`respond` on "today's date" under two different valid dates yields the date
response for each date, containing that date, and the two results differ. -/
theorem c5_date_fresh (y₁ m₁ d₁ y₂ m₂ d₂ : Nat)
    (h₁ : ValidDate y₁ m₁ d₁) (h₂ : ValidDate y₂ m₂ d₂)
    (hne : (y₁, m₁, d₁) ≠ (y₂, m₂, d₂)) :
    respond (formatDate y₁ m₁ d₁) (ofStr "today's date") =
      dateResponse (formatDate y₁ m₁ d₁) ∧
    containsSub (formatDate y₁ m₁ d₁)
      (respond (formatDate y₁ m₁ d₁) (ofStr "today's date")) = true ∧
    respond (formatDate y₁ m₁ d₁) (ofStr "today's date") ≠
      respond (formatDate y₂ m₂ d₂) (ofStr "today's date") := by
  have e1 : respond (formatDate y₁ m₁ d₁) (ofStr "today's date") =
      dateResponse (formatDate y₁ m₁ d₁) := rfl
  have e2 : respond (formatDate y₂ m₂ d₂) (ofStr "today's date") =
      dateResponse (formatDate y₂ m₂ d₂) := rfl
  refine ⟨e1, ?_, ?_⟩
  · rw [e1]
    unfold dateResponse
    simp only [List.append_assoc]
    rw [← List.append_assoc]
    exact containsSub_append _ _ _
  · rw [e1, e2]
    intro h
    obtain ⟨hy, hm, hd⟩ := formatDate_inj h₁ h₂ (dateResponse_inj h)
    exact hne (by rw [hy, hm, hd])

theorem c5_witness :
    respond (formatDate 2025 10 12) (ofStr "today's date") ≠
      respond (formatDate 2025 10 13) (ofStr "today's date") :=
  (c5_date_fresh 2025 10 12 2025 10 13 (by decide) (by decide) (by decide)).2.2

/-- C6: `respond` lowercases its input before any rule is evaluated, so it
is case-insensitive: `respond today s = respond today (lowerStr s)` for all
inputs, and "HELLO there" gets the same greeting as "hello". -/
theorem c6_case_insensitive (today input : Str) :
    respond today input = respond today (lowerStr input) ∧
    respond today (ofStr "HELLO there") = respond today (ofStr "hello") := by
  constructor
  · unfold respond
    rw [lowerStr_idem]
  · rfl

/-- C7: the `/chat` operation answers the 400 error payload exactly when the
message is missing or empty; in that case nothing reaches the store; every
non-empty message (with the store writable) yields the `{response}` payload
with the matcher's answer. -/
theorem c7_validation (today : Str) (now : Nat) (writeOk : Bool)
    (msg : Option Str) (db : Store) :
    ((chat today now writeOk msg db).1 = .clientError noMessageError ↔
      msg = none ∨ msg = some []) ∧
    (msg = none ∨ msg = some [] → (chat today now writeOk msg db).2 = db) ∧
    (∀ m, m ≠ [] → (chat today now true (some m) db).1 = .ok (respond today m)) := by
  have h3 : ∀ m : Str, m ≠ [] →
      (chat today now true (some m) db).1 = .ok (respond today m) := by
    intro m hm
    rw [chat_some_ne_nil hm]
  refine ⟨?_, ?_, h3⟩
  · cases msg with
    | none => simp [chat]
    | some m =>
      by_cases hm : m = []
      · subst hm
        simp [chat]
      · cases writeOk <;> simp [chat, hm]
  · rintro (rfl | rfl)
    · rfl
    · rfl

theorem c7_witness :
    (chat todayEx 0 true (some []) initDb).1 = .clientError noMessageError ∧
    (chat todayEx 0 true (some []) initDb).2 = initDb ∧
    (chat todayEx 0 true (some (ofStr "hello")) initDb).1 =
      .ok (respond todayEx (ofStr "hello")) := by
  obtain ⟨h1, h2, h3⟩ := c7_validation todayEx 0 true (some []) initDb
  exact ⟨h1.mpr (Or.inr rfl), h2 (Or.inr rfl), h3 (ofStr "hello") (by decide)⟩

/-- C8: after `n` successful chat calls from the freshly initialized store,
the store holds exactly `n` records, the k-th carrying key `k + 1` (unique,
ascending), the k-th call's exact input and output strings, and the
write-time timestamp of that call. -/
theorem c8_logging (today : Str) (calls : List (Str × Nat))
    (h : ∀ c ∈ calls, c.1 ≠ []) :
    (runChats today calls initDb).rows.length = calls.length ∧
    ∀ k c, calls[k]? = some c →
      (runChats today calls initDb).rows[k]? =
        some (Exchange.mk (k + 1) c.1 (respond today c.1) c.2) := by
  have hrun := runChats_eq today calls initDb h
  rw [hrun]
  constructor
  · show (initDb.rows ++ expectedLog today initDb.nextId calls).length = _
    simp [initDb, expectedLog_length]
  · intro k c hk
    show (initDb.rows ++ expectedLog today initDb.nextId calls)[k]? = _
    have := expectedLog_getElem today calls 1 k c hk
    rw [Nat.add_comm 1 k] at this
    simp only [initDb, List.nil_append]
    exact this

theorem c8_witness :
    (runChats todayEx [(ofStr "hello", 5), (ofStr "bye", 7)] initDb).rows.length = 2 ∧
    (runChats todayEx [(ofStr "hello", 5), (ofStr "bye", 7)] initDb).rows[1]? =
      some (Exchange.mk 2 (ofStr "bye") (respond todayEx (ofStr "bye")) 7) := by
  obtain ⟨h1, h2⟩ :=
    c8_logging todayEx [(ofStr "hello", 5), (ofStr "bye", 7)] (by decide)
  exact ⟨h1, h2 1 (ofStr "bye", 7) rfl⟩

/-- C9: when the store write fails on a non-empty message, the request as a
whole fails (an error, never the `{response}` payload), nothing is committed,
and the matcher's value — which does not depend on the write — is what a
successful write would have returned. -/
theorem c9_log_failure_fatal (today : Str) (now : Nat) (m : Str) (db : Store)
    (hm : m ≠ []) :
    (chat today now false (some m) db).1 = .serverError ∧
    (chat today now false (some m) db).2 = db ∧
    (∀ r, (chat today now false (some m) db).1 ≠ .ok r) ∧
    (chat today now true (some m) db).1 = .ok (respond today m) := by
  have he : chat today now false (some m) db = (.serverError, db) := by
    rw [chat, if_neg hm]
    rfl
  refine ⟨by rw [he], by rw [he], ?_, by rw [chat_some_ne_nil hm]⟩
  intro r h
  rw [he] at h
  exact ChatResult.noConfusion h

theorem c9_witness :
    (chat todayEx 3 false (some (ofStr "hi")) initDb).1 = .serverError ∧
    (chat todayEx 3 false (some (ofStr "hi")) initDb).2 = initDb ∧
    (chat todayEx 3 true (some (ofStr "hi")) initDb).1 =
      .ok (respond todayEx (ofStr "hi")) := by
  obtain ⟨h1, h2, _, h4⟩ :=
    c9_log_failure_fatal todayEx 3 (ofStr "hi") initDb (by decide)
  exact ⟨h1, h2, h4⟩

/-- C10: the trigger "कसा आहेस" sits in both the greeting rule (index 0) and
the "how are you" rule (index 1); the greeting rule is scanned first, so an
input containing "कसा आहेस" alone — no "hello"/"hi"/"नमस्कार"/"how are you",
no regex match — gets the greeting response, never the "how are you"
response: that rule's Marathi trigger cannot fire on its own. -/
theorem c10_shadowed_trigger (today input : Str)
    (hin : containsSub (ofStr "कसा आहेस") (lowerStr input) = true)
    (_h1 : containsSub (ofStr "hello") (lowerStr input) = false)
    (_h2 : containsSub (ofStr "hi") (lowerStr input) = false)
    (_h3 : containsSub (ofStr "नमस्कार") (lowerStr input) = false)
    (_h4 : containsSub (ofStr "how are you") (lowerStr input) = false)
    (hre : regex1Match (lowerStr input) = false)
    (hdev : containsSub devPhrase (lowerStr input) = false) :
    (ofStr "कसा आहेस") ∈ ((rulesList today).getD 0 ([], [])).1 ∧
    (ofStr "कसा आहेस") ∈ ((rulesList today).getD 1 ([], [])).1 ∧
    respond today input = greetingResponse ∧
    greetingResponse ≠ howAreYouResponse := by
  refine ⟨?_, ?_, ?_, by decide⟩
  · show (ofStr "कसा आहेस") ∈ [ofStr "hello", ofStr "hi", ofStr "नमस्कार", ofStr "कसा आहेस"]
    decide
  · show (ofStr "कसा आहेस") ∈ [ofStr "how are you", ofStr "कसा आहेस"]
    decide
  · rw [respond_eq, if_neg (by rw [hre, hdev]; simp)]
    have hfr : findRule (lowerStr input) (rulesList today) = some greetingResponse := by
      rw [rulesList, findRule, if_pos]
      rw [List.any_eq_true]
      exact ⟨ofStr "कसा आहेस", by decide, hin⟩
    rw [hfr]

theorem c10_witness :
    respond todayEx (ofStr "कसा आहेस") = greetingResponse :=
  (c10_shadowed_trigger todayEx (ofStr "कसा आहेस") (by decide) (by decide)
    (by decide) (by decide) (by decide) (by decide) (by decide)).2.2.1

end Chatbot
